import Mathlib

/-!
# PlaybackSock: request/reply exchange over a shared socket

A shallow embedding of `mythtv/programs/mythbackend/playbacksock.cpp`.

* A `QStringList` is a `List String` (`Frame`); `strlist[i]` is partial
  (`List.get?`-style), so an out-of-range index makes the enclosing
  operation return `none`.
* Stateful code is explicit state passing over `State`, which holds the
  `PlaybackSock` object, its `MainServer` parent and the process-wide
  `gContext`.
* The socket, the record codecs and the event dispatcher are declared in
  headers that are not part of the translated file; they are modelled as
  scripted collaborators or taken as parameters.
-/

namespace PlaybackSock

/-- A `QStringList`: an ordered list of text fields. -/
abbrev Frame := List String

/-- A `MythEvent` built by `MythEvent me(message, strlist)`. -/
structure MythEvent where
  message : String
  extradata : Frame
  deriving DecidableEq, Repr

/-- Modelled from the spec: what one call of `MythSocket::readStringList(strlist)`
does. It either delivers a frame into the caller's list and returns true, or
fails and returns false; a failed read leaves the caller's list empty, which
is what the tests for an empty list after an exchange (in `IsBusy` and
`GetFreeInputs`) rely on. -/
inductive ReadOutcome where
  | frame (f : Frame)
  | failure
  deriving DecidableEq, Repr

/-- The value `readStringList` returns. -/
def ReadOutcome.ok : ReadOutcome → Bool
  | .frame _ => true
  | .failure => false

/-- The contents `readStringList` leaves in the caller's list. -/
def ReadOutcome.data : ReadOutcome → Frame
  | .frame f => f
  | .failure => []

/-- Modelled from the spec: the transport handle (`MythSocket`, declared
outside the translated file). It supports write-frame, read-frame, a lock/unlock
pair and its own keep-alive reference count. Reads and writes are scripted:
`readScript` lists the outcomes of the reads still to come and `writeScript`
the outcomes of the writes still to come; `written` records every frame handed
to `writeStringList`, `readCalls` counts the calls of `readStringList`. -/
structure MythSocket where
  readScript : List ReadOutcome
  writeScript : List Bool
  written : List Frame
  readCalls : Nat
  lockDepth : Int
  refs : Int
  deriving DecidableEq, Repr

/-- The private members of a `PlaybackSock` object. The member `local` is
spelled `islocal`. -/
structure PBS where
  sock : MythSocket
  hostname : String
  ip : String
  events : Bool
  backend : Bool
  expectingreply : Bool
  disconnected : Bool
  blockshutdown : Bool
  islocal : Bool
  /-- The `int` counter, kept within `-2^31 .. 2^31 - 1` by `UpRef` and `DownRef`. -/
  refCount : Int
  deriving DecidableEq, Repr

/-- Modelled from the spec: the owning registry (`MainServer`, declared outside
the translated file); `deleted` counts the `DeletePBS` notifications received. -/
structure MainServer where
  deleted : Nat
  deriving DecidableEq, Repr

/-- Modelled from the spec: the process-wide context (`gContext`, declared
outside the translated file): the local host name and the events handed to
`dispatch`, oldest first. -/
structure MythContext where
  hostName : String
  dispatched : List MythEvent
  deriving DecidableEq, Repr

/-- Everything the member functions of a `PlaybackSock` can touch. -/
structure State where
  pbs : PBS
  parent : MainServer
  gContext : MythContext
  deriving DecidableEq, Repr

/-! ## Library collaborators -/

/-- Decimal digits to a number; `none` on a non-digit. -/
def parseDigits : List Char → Nat → Option Nat
  | [], acc => some acc
  | c :: cs, acc =>
    if c.isDigit then parseDigits cs (acc * 10 + (c.toNat - 48)) else none

/-- The text with leading and trailing white space removed. -/
def trimmed (s : String) : List Char :=
  ((s.toList.dropWhile Char.isWhitespace).reverse.dropWhile Char.isWhitespace).reverse

/-- The library call `QString::toInt()`: a decimal integer with an optional
sign, white space around it ignored; `0` when the text is not a number or the
number does not fit a 32-bit `int`. -/
def toInt (s : String) : Int :=
  let body : Bool × List Char :=
    match trimmed s with
    | '-' :: r => (true, r)
    | '+' :: r => (false, r)
    | r => (false, r)
  match body.2 with
  | [] => 0
  | ds =>
    match parseDigits ds 0 with
    | none => 0
    | some n =>
      let v : Int := if body.1 then -(n : Int) else (n : Int)
      if -2147483648 ≤ v ∧ v ≤ 2147483647 then v else 0

/-- The library call `QString::number(n)`: decimal text. -/
def number (n : Int) : String := toString n

/-- The request head `QString("QUERY_REMOTEENCODER %1").arg(capturecardnum)`. -/
def remoteEncoder (capturecardnum : Int) : String :=
  "QUERY_REMOTEENCODER " ++ number capturecardnum

/-! ## The socket -/

/-- Modelled from the spec: `MythSocket::Lock`. -/
def MythSocket.Lock (s : MythSocket) : MythSocket :=
  { s with lockDepth := s.lockDepth + 1 }

/-- Modelled from the spec: `MythSocket::Unlock`. -/
def MythSocket.Unlock (s : MythSocket) : MythSocket :=
  { s with lockDepth := s.lockDepth - 1 }

/-- Modelled from the spec: `MythSocket::UpRef`, the keep-alive hold. -/
def MythSocket.UpRef (s : MythSocket) : MythSocket :=
  { s with refs := s.refs + 1 }

/-- Modelled from the spec: `MythSocket::DownRef`, releasing the keep-alive hold. -/
def MythSocket.DownRef (s : MythSocket) : MythSocket :=
  { s with refs := s.refs - 1 }

/-- Modelled from the spec: `MythSocket::writeStringList`. The frame is recorded
and the next scripted write outcome is returned; with no outcome left the write
fails. -/
def MythSocket.writeStringList (s : MythSocket) (strlist : Frame) : Bool × MythSocket :=
  match s.writeScript with
  | [] => (false, { s with written := s.written ++ [strlist] })
  | w :: ws => (w, { s with writeScript := ws, written := s.written ++ [strlist] })

/-- Modelled from the spec: `MythSocket::readStringList`. The next scripted
outcome decides the returned flag and what is left in the caller's list; with
no outcome left nothing arrives, the read fails and the list is left empty. -/
def MythSocket.readStringList (s : MythSocket) (_strlist : Frame) :
    Bool × Frame × MythSocket :=
  match s.readScript with
  | [] => (false, [], { s with readCalls := s.readCalls + 1 })
  | r :: rs => (r.ok, r.data, { s with readScript := rs, readCalls := s.readCalls + 1 })

/-- Modelled from the spec: `gContext->dispatch(me)`, fire-and-forget delivery
to the event sink. -/
def MythContext.dispatch (g : MythContext) (me : MythEvent) : MythContext :=
  { g with dispatched := g.dispatched ++ [me] }

/-- Modelled from the spec: `MainServer::DeletePBS`, the registry being told to
remove and destroy the handle. -/
def MainServer.DeletePBS (m : MainServer) : MainServer :=
  { m with deleted := m.deleted + 1 }

/-! ## Construction and reference counting -/

/-- The constructor `PlaybackSock::PlaybackSock(parent, lsock, lhostname, wantevents)`. -/
def construct (parent : MainServer) (gContext : MythContext) (lsock : MythSocket)
    (lhostname : String) (wantevents : Bool) : State :=
  let localhostname := gContext.hostName
  { pbs :=
      { sock := lsock
        hostname := lhostname
        ip := ""
        events := wantevents
        backend := false
        expectingreply := false
        disconnected := false
        blockshutdown := true
        islocal := if lhostname = localhostname then true else false
        refCount := 0 }
    parent := parent
    gContext := gContext }

/-- The value a 32-bit `int` holds after an arithmetic step whose exact result
is `x`: two's complement wrap-around into `-2^31 .. 2^31 - 1`. -/
def wrapInt (x : Int) : Int :=
  (x + 2147483648) % 4294967296 - 2147483648

/-- The member `PlaybackSock::UpRef`: `refCount++` on the `int` counter. -/
def UpRef (st : State) : State :=
  { st with pbs := { st.pbs with refCount := wrapInt (st.pbs.refCount + 1) } }

/-- The member `PlaybackSock::DownRef`: the returned flag and the state after;
`refCount--` on the `int` counter. -/
def DownRef (st : State) : Bool × State :=
  let st1 : State :=
    { st with pbs := { st.pbs with refCount := wrapInt (st.pbs.refCount - 1) } }
  if st1.pbs.refCount < 0 then
    (true, { st1 with parent := st1.parent.DeletePBS })
  else
    (false, st1)

/-- The state after `n` sequential `UpRef` calls. -/
def upRefs : Nat → State → State
  | 0, st => st
  | n + 1, st => upRefs n (UpRef st)

/-- The flags returned by `n` sequential `DownRef` calls, and the state after. -/
def downRefs : Nat → State → List Bool × State
  | 0, st => ([], st)
  | n + 1, st =>
    let r := DownRef st
    let rs := downRefs n r.2
    (r.1 :: rs.1, rs.2)

/-! ## The exchange -/

/-- The loop `while (ok && strlist[0] == "BACKEND_MESSAGE") ...` of
`SendReceiveStringList`, entered with the result of the first read. Every
iteration makes one read and a read beyond the script fails, so `fuel` larger
than the number of scripted reads plus one is never used up. `none` is an
out-of-range `strlist[0]`. -/
def recvLoop : Nat → Bool → Frame → MythSocket → MythContext →
    Option (Bool × Frame × MythSocket × MythContext)
  | 0, _, _, _, _ => none
  | fuel + 1, ok, strlist, sock, g =>
    if ok then
      match strlist[0]? with
      | none => none
      | some field0 =>
        if field0 = "BACKEND_MESSAGE" then
          -- oops, not for us
          let body : Frame × MythContext :=
            if strlist.length ≥ 2 then
              let message := strlist[1]?.getD ""
              let payload := strlist.tail.tail
              (payload, g.dispatch { message := message, extradata := payload })
            else
              (strlist, g)
          let r := sock.readStringList body.1
          recvLoop fuel r.1 r.2.1 r.2.2 body.2
        else
          some (ok, strlist, sock, g)
    else
      some (ok, strlist, sock, g)

/-- The member `PlaybackSock::SendReceiveStringList(strlist, min_reply_length)`:
the returned flag, the contents left in `strlist` and the state after; `none`
when `strlist[0]` is evaluated on an empty list. -/
def SendReceiveStringList (st : State) (strlist : Frame) (min_reply_length : Nat) :
    Option (Bool × Frame × State) :=
  let sock := st.pbs.sock.Lock.UpRef
  let w := sock.writeStringList strlist
  let r := w.2.readStringList strlist
  match recvLoop (w.2.readScript.length + 2) r.1 r.2.1 r.2.2 st.gContext with
  | none => none
  | some (ok, strlist, sock, g) =>
    let st1 : State :=
      { st with
        pbs := { st.pbs with sock := sock.Unlock.DownRef, expectingreply := false }
        gContext := g }
    if !ok then
      some (false, strlist, st1)
    else if min_reply_length ≠ 0 ∧ strlist.length < min_reply_length then
      some (false, strlist, st1)
    else
      some (true, strlist, st1)

/-! ## Record collaborators -/

/-- The class `ProgramInfo` as far as this file uses it: the member `pathname`
and, in `other`, all its remaining members. -/
structure ProgramInfo (P : Type) where
  pathname : String
  other : P
  deriving DecidableEq, Repr

/-- Modelled from the spec: `ProgramInfo::ToStringList(strlist)`, declared
outside the translated file; it appends the record's field-sequence encoding
`enc p` to the list. -/
def ToStringList {P : Type} (enc : ProgramInfo P → Frame) (p : ProgramInfo P)
    (strlist : Frame) : Frame :=
  strlist ++ enc p

/-- The class `InputInfo` as far as this file uses it, declared outside the
translated file: the default-constructed object `fresh`, and
`FromStringList(it, end)`, which receives the object and the fields from `it`
to `end` and yields the returned flag, the object after the call and the
fields from the advanced `it` to `end`. -/
structure InputInfoClass (I : Type) where
  fresh : I
  FromStringList : I → Frame → Bool × I × Frame

/-- Modelled from the spec: `decodeLongLong(list, offset)`, declared outside the
translated file: the wide integer held by the two consecutive decimal fields at
`offset` and `offset + 1`, high word first; `none` when a field is out of
range. -/
def decodeLongLong (list : Frame) (offset : Nat) : Option Int :=
  match list[offset]?, list[offset + 1]? with
  | some hi, some lo => some (toInt hi * 4294967296 + toInt lo % 4294967296)
  | _, _ => none

/-! ## The verbs -/

/-- The member `PlaybackSock::GoToSleep`. -/
def GoToSleep (st : State) : Option (Bool × State) :=
  match SendReceiveStringList st ["GO_TO_SLEEP"] 1 with
  | none => none
  | some (ok, strlist, st1) =>
    if ok then
      match strlist[0]? with
      | none => none
      | some field0 => some (decide (field0 = "OK"), st1)
    else
      some (false, st1)

/-- The member `PlaybackSock::GetDiskSpace(o_strlist)`: the caller's list after
the call. The exchange uses the default `min_reply_length` of 0. -/
def GetDiskSpace (st : State) (o_strlist : Frame) : Option (Frame × State) :=
  match SendReceiveStringList st ["QUERY_FREE_SPACE"] 0 with
  | none => none
  | some (_, strlist, st1) => some (o_strlist ++ strlist, st1)

/-- The member `PlaybackSock::CheckRecordingActive(pginfo)`. -/
def CheckRecordingActive {P : Type} (enc : ProgramInfo P → Frame) (st : State)
    (pginfo : ProgramInfo P) : Option (Int × State) :=
  match SendReceiveStringList st (ToStringList enc pginfo ["CHECK_RECORDING"]) 1 with
  | none => none
  | some (ok, strlist, st1) =>
    if ok then
      match strlist[0]? with
      | none => none
      | some field0 => some (toInt field0, st1)
    else
      some (0, st1)

/-- The member `PlaybackSock::StopRecording(pginfo)`. -/
def StopRecording {P : Type} (enc : ProgramInfo P → Frame) (st : State)
    (pginfo : ProgramInfo P) : Option (Int × State) :=
  match SendReceiveStringList st (ToStringList enc pginfo ["STOP_RECORDING"]) 1 with
  | none => none
  | some (ok, strlist, st1) =>
    if ok then
      match strlist[0]? with
      | none => none
      | some field0 => some (toInt field0, st1)
    else
      some (0, st1)

/-- The member `PlaybackSock::DeleteRecording(pginfo, forceMetadataDelete)`. -/
def DeleteRecording {P : Type} (enc : ProgramInfo P → Frame) (st : State)
    (pginfo : ProgramInfo P) (forceMetadataDelete : Bool) : Option (Int × State) :=
  let strlist : Frame :=
    if forceMetadataDelete then ["FORCE_DELETE_RECORDING"] else ["DELETE_RECORDING"]
  match SendReceiveStringList st (ToStringList enc pginfo strlist) 1 with
  | none => none
  | some (ok, strlist, st1) =>
    if ok then
      match strlist[0]? with
      | none => none
      | some field0 => some (toInt field0, st1)
    else
      some (0, st1)

/-- The member `PlaybackSock::CheckFile(pginfo)`: the returned flag, the
caller's record after the call and the state after. -/
def CheckFile {P : Type} (enc : ProgramInfo P → Frame) (st : State)
    (pginfo : ProgramInfo P) : Option (Bool × ProgramInfo P × State) :=
  let strlist : Frame := ToStringList enc pginfo (["QUERY_CHECKFILE"] ++ [number 0])
  match SendReceiveStringList st strlist 2 with
  | none => none
  | some (ok, strlist, st1) =>
    if ok then
      match strlist[1]? with
      | none => none
      | some field1 =>
        match strlist[0]? with
        | none => none
        | some field0 =>
          some (decide (toInt field0 ≠ 0), { pginfo with pathname := field1 }, st1)
    else
      some (false, pginfo, st1)

/-- The member `PlaybackSock::IsBusy(capturecardnum, busy_input, time_buffer)`:
the returned flag, the object behind `busy_input` after the call (`none` for a
null pointer) and the state after. The log lines are not modelled. -/
def IsBusy {I : Type} (cls : InputInfoClass I) (st : State) (capturecardnum : Int)
    (busy_input : Option I) (time_buffer : Int) : Option (Bool × Option I × State) :=
  let strlist : Frame := [remoteEncoder capturecardnum] ++ ["IS_BUSY"] ++ [number time_buffer]
  match SendReceiveStringList st strlist 1 with
  | none => none
  | some (_, strlist, st1) =>
    match strlist with
    | [] => some (false, busy_input, st1)
    | field0 :: rest =>
      let state : Bool := decide (toInt field0 ≠ 0)
      match busy_input with
      | none => some (state, none, st1)
      | some input =>
        let r := cls.FromStringList input rest
        if !r.1 then
          -- pretend it's not busy if we can't parse response
          some (false, some r.2.1, st1)
        else
          some (state, some r.2.1, st1)

/-- The member `PlaybackSock::GetEncoderState(capturecardnum)`; the constant
`kState_Error` is declared outside the translated file. -/
def GetEncoderState (kState_Error : Int) (st : State) (capturecardnum : Int) :
    Option (Int × State) :=
  match SendReceiveStringList st ([remoteEncoder capturecardnum] ++ ["GET_STATE"]) 1 with
  | none => none
  | some (ok, strlist, st1) =>
    if !ok then
      some (kState_Error, st1)
    else
      match strlist[0]? with
      | none => none
      | some field0 => some (toInt field0, st1)

/-- The member `PlaybackSock::GetMaxBitrate(capturecardnum)`. -/
def GetMaxBitrate (st : State) (capturecardnum : Int) : Option (Int × State) :=
  match SendReceiveStringList st ([remoteEncoder capturecardnum] ++ ["GET_MAX_BITRATE"]) 2 with
  | none => none
  | some (ok, strlist, st1) =>
    if ok then
      match decodeLongLong strlist 0 with
      | none => none
      | some v => some (v, st1)
    else
      some (20200000, st1) -- Peek bit rate for HD-PVR

/-- The member `PlaybackSock::EncoderIsRecording(capturecardnum, pginfo)`. -/
def EncoderIsRecording {P : Type} (enc : ProgramInfo P → Frame) (st : State)
    (capturecardnum : Int) (pginfo : ProgramInfo P) : Option (Bool × State) :=
  let strlist : Frame :=
    ToStringList enc pginfo ([remoteEncoder capturecardnum] ++ ["MATCHES_RECORDING"])
  match SendReceiveStringList st strlist 1 with
  | none => none
  | some (ok, strlist, st1) =>
    if ok then
      match strlist[0]? with
      | none => none
      | some field0 => some (decide (toInt field0 ≠ 0), st1)
    else
      some (false, st1)

/-- The member `PlaybackSock::StartRecording(capturecardnum, pginfo)`; the
status is the integer behind `RecStatusType`, whose value `rsUnknown` is
declared outside the translated file. -/
def StartRecording {P : Type} (enc : ProgramInfo P → Frame) (rsUnknown : Int) (st : State)
    (capturecardnum : Int) (pginfo : ProgramInfo P) : Option (Int × State) :=
  let strlist : Frame :=
    ToStringList enc pginfo ([remoteEncoder capturecardnum] ++ ["START_RECORDING"])
  match SendReceiveStringList st strlist 1 with
  | none => none
  | some (ok, strlist, st1) =>
    if ok then
      match strlist[0]? with
      | none => none
      | some field0 => some (toInt field0, st1)
    else
      some (rsUnknown, st1)

/-- The member `PlaybackSock::SetSignalMonitoringRate(capturecardnum, rate,
notifyFrontend)`. -/
def SetSignalMonitoringRate (st : State) (capturecardnum rate notifyFrontend : Int) :
    Option (Int × State) :=
  let strlist : Frame :=
    [remoteEncoder capturecardnum] ++ ["SET_SIGNAL_MONITORING_RATE"] ++ [number rate] ++
      [number notifyFrontend]
  match SendReceiveStringList st strlist 1 with
  | none => none
  | some (ok, strlist, st1) =>
    if ok then
      match strlist[0]? with
      | none => none
      | some field0 => some (toInt field0, st1)
    else
      some (-1, st1)

/-- The loop `while (it != strlist.end())` of `GetFreeInputs`: `it` is the list
of fields from the iterator to the end, `list` the records collected so far.
`none` when `fuel` iterations did not reach the end of the loop. -/
def hydrateLoop {I : Type} (cls : InputInfoClass I) : Nat → Frame → List I → Option (List I)
  | 0, _, _ => none
  | fuel + 1, it, list =>
    match it with
    | [] => some list
    | _ :: _ =>
      let r := cls.FromStringList cls.fresh it
      if !r.1 then some list else hydrateLoop cls fuel r.2.2 (list ++ [r.2.1])

/-- The member `PlaybackSock::GetFreeInputs(capturecardnum, excluded_cardids)`,
its decode loop run for at most `fuel` iterations. The exchange uses the
default `min_reply_length` of 0. -/
def GetFreeInputs {I : Type} (cls : InputInfoClass I) (fuel : Nat) (st : State)
    (capturecardnum : Int) (excluded_cardids : List Nat) : Option (List I × State) :=
  let strlist : Frame :=
    [remoteEncoder capturecardnum] ++ ["GET_FREE_INPUTS"] ++
      excluded_cardids.map (fun c => number (c : Int))
  match SendReceiveStringList st strlist 0 with
  | none => none
  | some (_, strlist, st1) =>
    match strlist with
    | [] => some ([], st1)
    | field0 :: _ =>
      if field0 = "EMPTY_LIST" then some ([], st1)
      else
        match hydrateLoop cls fuel strlist [] with
        | none => none
        | some list => some (list, st1)

/-! ## Sample states for evaluation -/

/-- A socket with the given scripts and nothing done yet. -/
def sockOf (reads : List ReadOutcome) (writes : List Bool) : MythSocket :=
  { readScript := reads, writeScript := writes, written := [], readCalls := 0,
    lockDepth := 0, refs := 0 }

/-- A freshly constructed connection to host `slave` over the given socket. -/
def stateOf (reads : List ReadOutcome) (writes : List Bool) : State :=
  construct { deleted := 0 } { hostName := "master", dispatched := [] }
    (sockOf reads writes) "slave" false

/-- The state `stateOf` reaches once its scripts are used up, with the given
frames written and the given number of reads made. -/
def stateAfter (written : List Frame) (calls : Nat) : State :=
  { stateOf [] [] with
    pbs := { (stateOf [] []).pbs with
      sock := { readScript := [], writeScript := [], written := written, readCalls := calls,
                lockDepth := 0, refs := 0 } } }

/-- A successfully read frame. -/
def arrived (f : Frame) : ReadOutcome := ReadOutcome.frame f

/-- A failed read. -/
def failed : ReadOutcome := ReadOutcome.failure

/-- A sample input record: a name and a source id. -/
structure SampleInput where
  name : String
  sourceid : Int
  deriving DecidableEq, Repr

/-- A sample `InputInfo` class: a record is two fields, the name and the source
id; hydration fails when the fields run out before the record is complete. -/
def sampleInputClass : InputInfoClass SampleInput where
  fresh := { name := "", sourceid := 0 }
  FromStringList := fun cur it =>
    match it with
    | [] => (false, cur, [])
    | [n] => (false, { cur with name := n }, [])
    | n :: s :: rest => (true, { name := n, sourceid := toInt s }, rest)

/-- A sample programme record whose other members are a title and a channel id. -/
def sampleProgram : ProgramInfo (String × Nat) :=
  { pathname := "/old/path.mpg", other := ("News", 1001) }

/-- A sample `ProgramInfo` encoding: title, channel id, path. -/
def sampleEnc (p : ProgramInfo (String × Nat)) : Frame :=
  [p.other.1, number p.other.2, p.pathname]

/-- The event the loop of `SendReceiveStringList` builds from a frame: the name
is field 1, the payload the fields from 2 on. -/
def eventOf (f : Frame) : MythEvent :=
  { message := f[1]?.getD "", extradata := f.drop 2 }

/-- The state `st` with the read script and the read counter of its socket
replaced. -/
def withReads (st : State) (reads : List ReadOutcome) (calls : Nat) : State :=
  { st with pbs := { st.pbs with sock := { st.pbs.sock with readScript := reads, readCalls := calls } } }

/-- The state `st` with the write script of its socket replaced. -/
def withWrites (st : State) (writes : List Bool) : State :=
  { st with pbs := { st.pbs with sock := { st.pbs.sock with writeScript := writes } } }

/-- The fields `g` are a valid input-record group for the record `r`:
hydrating a fresh object from `g` followed by any further fields succeeds,
yields `r` and leaves the iterator just behind `g`. -/
def ValidGroup {I : Type} (cls : InputInfoClass I) (g : Frame) (r : I) : Prop :=
  ∀ rest : Frame, cls.FromStringList cls.fresh (g ++ rest) = (true, r, rest)

/-- Hydration that succeeds consumes a non-empty prefix of the fields it was
given. -/
def Consuming {I : Type} (cls : InputInfoClass I) : Prop :=
  ∀ (cur : I) (it : Frame), (cls.FromStringList cur it).1 = true →
    ∃ pre : Frame, pre ≠ [] ∧ it = pre ++ (cls.FromStringList cur it).2.2

/-! ## The receive loop -/

theorem recvLoop_stop (n : Nat) (sl : Frame) (sock : MythSocket) (g : MythContext) :
    recvLoop (n + 1) false sl sock g = some (false, sl, sock, g) := by
  simp [recvLoop]

theorem recvLoop_reply (n : Nat) {sl : Frame} {field0 : String} (sock : MythSocket)
    (g : MythContext) (h0 : sl[0]? = some field0) (hne : field0 ≠ "BACKEND_MESSAGE") :
    recvLoop (n + 1) true sl sock g = some (true, sl, sock, g) := by
  simp [recvLoop, h0, hne]

theorem recvLoop_message (n : Nat) {sl : Frame} (sock : MythSocket) (g : MythContext)
    (h0 : sl[0]? = some "BACKEND_MESSAGE") :
    recvLoop (n + 1) true sl sock g =
      recvLoop n (sock.readStringList []).1 (sock.readStringList []).2.1
        (sock.readStringList []).2.2
        (if 2 ≤ sl.length then g.dispatch (eventOf sl) else g) := by
  have hd : sl.tail.tail = sl.drop 2 := by
    cases sl with
    | nil => rfl
    | cons a t => cases t <;> rfl
  by_cases h2 : 2 ≤ sl.length
  · simp [recvLoop, h0, h2, eventOf, hd, MythSocket.readStringList]
  · simp [recvLoop, h0, h2, MythSocket.readStringList]

/-- Fuel beyond the number of scripted reads plus one does not change the
result of the receive loop. -/
theorem recvLoop_fuel (n : Nat) : ∀ (m : Nat) (ok : Bool) (sl : Frame) (sock : MythSocket)
    (g : MythContext), sock.readScript.length + 1 < n → sock.readScript.length + 1 < m →
    recvLoop n ok sl sock g = recvLoop m ok sl sock g := by
  induction n with
  | zero => intro m ok sl sock g h; omega
  | succ n ih =>
    intro m ok sl sock g hn hm
    obtain ⟨m, rfl⟩ : ∃ k, m = k + 1 := ⟨m - 1, by omega⟩
    cases ok with
    | false => simp [recvLoop]
    | true =>
      cases h0 : sl[0]? with
      | none => simp [recvLoop, h0]
      | some field0 =>
        by_cases hb : field0 = "BACKEND_MESSAGE"
        · subst hb
          rw [recvLoop_message n sock g h0, recvLoop_message m sock g h0]
          cases hs : sock.readScript with
          | nil =>
            obtain ⟨n, rfl⟩ : ∃ k, n = k + 1 := ⟨n - 1, by rw [hs] at hn; simp at hn; omega⟩
            obtain ⟨m, rfl⟩ : ∃ k, m = k + 1 := ⟨m - 1, by rw [hs] at hm; simp at hm; omega⟩
            simp [MythSocket.readStringList, hs, recvLoop]
          | cons r rs =>
            rw [hs] at hn hm
            simp only [List.length_cons] at hn hm
            simp only [MythSocket.readStringList, hs]
            apply ih
            · simp; omega
            · simp; omega
        · rw [recvLoop_reply n sock g h0 hb, recvLoop_reply m sock g h0 hb]

/-- Reading through a run of `BACKEND_MESSAGE` frames followed by a frame with
another field 0: the loop ends on that frame, having made one read per frame
and dispatched one event per message frame of two or more fields, in order. -/
theorem recvLoop_messages {R : Frame} {r0 : String} (later : List ReadOutcome)
    (hR : R[0]? = some r0) (hne : r0 ≠ "BACKEND_MESSAGE") :
    ∀ (msgs : List Frame) (n : Nat) (sock : MythSocket) (g : MythContext),
      (∀ f ∈ msgs, f[0]? = some "BACKEND_MESSAGE") →
      sock.readScript = msgs.map arrived ++ arrived R :: later →
      msgs.length < n →
      recvLoop n (sock.readStringList []).1 (sock.readStringList []).2.1
          (sock.readStringList []).2.2 g =
        some (true, R,
          { sock with readScript := later, readCalls := sock.readCalls + msgs.length + 1 },
          { g with dispatched :=
              g.dispatched ++ (msgs.filter (fun f => decide (2 ≤ f.length))).map eventOf }) := by
  intro msgs
  induction msgs with
  | nil =>
    intro n sock g _ hs hn
    obtain ⟨n, rfl⟩ : ∃ k, n = k + 1 := ⟨n - 1, by simp at hn; omega⟩
    simp only [List.map_nil, List.nil_append] at hs
    simp only [MythSocket.readStringList, hs, arrived, ReadOutcome.ok, ReadOutcome.data]
    rw [recvLoop_reply n _ g hR hne]
    simp
  | cons f fs ih =>
    intro n sock g hall hs hn
    obtain ⟨n, rfl⟩ : ∃ k, n = k + 1 := ⟨n - 1, by simp at hn; omega⟩
    have hf : f[0]? = some "BACKEND_MESSAGE" := hall f (List.mem_cons_self _ _)
    have hfs : ∀ x ∈ fs, x[0]? = some "BACKEND_MESSAGE" :=
      fun x hx => hall x (List.mem_cons_of_mem _ hx)
    simp only [List.map_cons, List.cons_append] at hs
    simp only [MythSocket.readStringList, hs, arrived, ReadOutcome.ok, ReadOutcome.data]
    rw [recvLoop_message n _ g hf]
    rw [ih n _ _ hfs (by simp [arrived]) (by simp at hn; omega)]
    by_cases h2 : 2 ≤ f.length
    · simp [h2, MythContext.dispatch, List.filter_cons, Nat.add_assoc, Nat.add_comm 1]
    · simp [h2, List.filter_cons, Nat.add_assoc, Nat.add_comm 1]

theorem readStringList_buffer (s : MythSocket) (buf : Frame) :
    s.readStringList buf = s.readStringList [] := rfl

theorem writeStringList_readScript (s : MythSocket) (f : Frame) :
    (s.writeStringList f).2.readScript = s.readScript := by
  unfold MythSocket.writeStringList
  cases s.writeScript <;> rfl

theorem writeStringList_readCalls (s : MythSocket) (f : Frame) :
    (s.writeStringList f).2.readCalls = s.readCalls := by
  unfold MythSocket.writeStringList
  cases s.writeScript <;> rfl

theorem writeStringList_written (s : MythSocket) (f : Frame) :
    (s.writeStringList f).2.written = s.written ++ [f] := by
  unfold MythSocket.writeStringList
  cases s.writeScript <;> rfl

theorem readStringList_length (s : MythSocket) (buf : Frame) :
    (s.readStringList buf).2.2.readScript.length = s.readScript.length - 1 := by
  unfold MythSocket.readStringList
  cases s.readScript <;> simp

/-- The whole exchange on a script that starts with a run of `BACKEND_MESSAGE`
frames followed by a frame `R` with another field 0. -/
theorem exchange_messages (st : State) (request : Frame) (m : Nat) (msgs : List Frame)
    {R : Frame} {r0 : String} (later : List ReadOutcome)
    (hR : R[0]? = some r0) (hne : r0 ≠ "BACKEND_MESSAGE")
    (hall : ∀ f ∈ msgs, f[0]? = some "BACKEND_MESSAGE")
    (hs : st.pbs.sock.readScript = msgs.map arrived ++ arrived R :: later) :
    ∃ st1 : State,
      SendReceiveStringList st request m = some (decide (m = 0 ∨ m ≤ R.length), R, st1) ∧
      st1.pbs.sock.readCalls = st.pbs.sock.readCalls + msgs.length + 1 ∧
      st1.pbs.sock.readScript = later ∧
      st1.pbs.sock.written = st.pbs.sock.written ++ [request] ∧
      st1.gContext.dispatched =
        st.gContext.dispatched ++ (msgs.filter (fun f => decide (2 ≤ f.length))).map eventOf := by
  have hs1 : (st.pbs.sock.Lock.UpRef.writeStringList request).2.readScript =
      msgs.map arrived ++ arrived R :: later := by
    rw [writeStringList_readScript]; exact hs
  have hfuel : msgs.length <
      (st.pbs.sock.Lock.UpRef.writeStringList request).2.readScript.length + 2 := by
    rw [hs1]; simp; omega
  have key := recvLoop_messages later hR hne msgs _ _ st.gContext hall hs1 hfuel
  unfold SendReceiveStringList
  simp only [readStringList_buffer _ request] at key ⊢
  rw [key]
  by_cases hm : m = 0 ∨ m ≤ R.length
  · have hm2 : ¬ (m ≠ 0 ∧ R.length < m) := by omega
    have hdec : decide (m = 0 ∨ m ≤ R.length) = true := decide_eq_true hm
    rw [hdec]
    simp only [Bool.not_true, Bool.false_eq_true, if_false]
    rw [if_neg hm2]
    refine ⟨_, rfl, ?_, rfl, ?_, rfl⟩
    · simp [MythSocket.Unlock, MythSocket.DownRef, writeStringList_readCalls, MythSocket.Lock,
        MythSocket.UpRef]
    · simp [MythSocket.Unlock, MythSocket.DownRef, writeStringList_written, MythSocket.Lock,
        MythSocket.UpRef]
  · have hm2 : m ≠ 0 ∧ R.length < m := by omega
    have hdec : decide (m = 0 ∨ m ≤ R.length) = false := decide_eq_false hm
    rw [hdec]
    simp only [Bool.not_true, Bool.false_eq_true, if_false]
    rw [if_pos hm2]
    refine ⟨_, rfl, ?_, rfl, ?_, rfl⟩
    · simp [MythSocket.Unlock, MythSocket.DownRef, writeStringList_readCalls, MythSocket.Lock,
        MythSocket.UpRef]
    · simp [MythSocket.Unlock, MythSocket.DownRef, writeStringList_written, MythSocket.Lock,
        MythSocket.UpRef]

/-- The receive loop never lowers the read counter. -/
theorem recvLoop_readCalls (n : Nat) : ∀ (ok : Bool) (sl : Frame) (sock : MythSocket)
    (g : MythContext) (r : Bool × Frame × MythSocket × MythContext),
    recvLoop n ok sl sock g = some r → sock.readCalls ≤ r.2.2.1.readCalls := by
  induction n with
  | zero => intro ok sl sock g r h; simp [recvLoop] at h
  | succ n ih =>
    intro ok sl sock g r h
    cases ok with
    | false =>
      rw [recvLoop_stop] at h
      injection h with h; subst h; exact Nat.le_refl _
    | true =>
      cases h0 : sl[0]? with
      | none => simp [recvLoop, h0] at h
      | some field0 =>
        by_cases hb : field0 = "BACKEND_MESSAGE"
        · subst hb
          rw [recvLoop_message n sock g h0] at h
          have h1 := ih _ _ _ _ r h
          have h2 : sock.readCalls ≤ (sock.readStringList []).2.2.readCalls := by
            unfold MythSocket.readStringList
            cases sock.readScript <;> simp
          exact Nat.le_trans h2 h1
        · rw [recvLoop_reply n sock g h0 hb] at h
          injection h with h; subst h; exact Nat.le_refl _

/-- A bare `["BACKEND_MESSAGE"]` frame among the message frames is read and
dropped: the loop goes on as if the frame had not been in the script, with one
more read counted. -/
theorem recvLoop_skip_bare (later : List ReadOutcome) :
    ∀ (pre : List Frame) (n m : Nat) (sock : MythSocket) (g : MythContext),
      (∀ f ∈ pre, f[0]? = some "BACKEND_MESSAGE") →
      sock.readScript = pre.map arrived ++ arrived ["BACKEND_MESSAGE"] :: later →
      sock.readScript.length + 1 < n → (pre.map arrived ++ later).length + 1 < m →
      recvLoop n (sock.readStringList []).1 (sock.readStringList []).2.1
          (sock.readStringList []).2.2 g =
        recvLoop m
          ({ sock with readScript := pre.map arrived ++ later,
                       readCalls := sock.readCalls + 1 }.readStringList []).1
          ({ sock with readScript := pre.map arrived ++ later,
                       readCalls := sock.readCalls + 1 }.readStringList []).2.1
          ({ sock with readScript := pre.map arrived ++ later,
                       readCalls := sock.readCalls + 1 }.readStringList []).2.2 g := by
  intro pre
  induction pre with
  | nil =>
    intro n m sock g _ hs hn hm
    rw [hs] at hn
    simp only [List.map_nil, List.nil_append, List.length_cons] at hs hn hm
    obtain ⟨n, rfl⟩ : ∃ k, n = k + 1 := ⟨n - 1, by omega⟩
    have hb : (["BACKEND_MESSAGE"] : Frame)[0]? = some "BACKEND_MESSAGE" := rfl
    conv_lhs => simp only [MythSocket.readStringList, hs, arrived, ReadOutcome.ok, ReadOutcome.data]
    rw [recvLoop_message n _ g hb]
    simp only [List.map_nil, List.nil_append]
    have h2 : ¬ (2 ≤ (["BACKEND_MESSAGE"] : Frame).length) := by decide
    rw [if_neg h2]
    apply recvLoop_fuel
    · rw [readStringList_length]; simp; omega
    · rw [readStringList_length]; simp; omega
  | cons f fs ih =>
    intro n m sock g hall hs hn hm
    rw [hs] at hn
    simp only [List.map_cons, List.cons_append, List.length_cons, List.length_append,
      List.length_map] at hs hn hm
    obtain ⟨n, rfl⟩ : ∃ k, n = k + 1 := ⟨n - 1, by omega⟩
    obtain ⟨m, rfl⟩ : ∃ k, m = k + 1 := ⟨m - 1, by omega⟩
    have hf : f[0]? = some "BACKEND_MESSAGE" := hall f (List.mem_cons_self _ _)
    have hfs : ∀ x ∈ fs, x[0]? = some "BACKEND_MESSAGE" :=
      fun x hx => hall x (List.mem_cons_of_mem _ hx)
    simp only [MythSocket.readStringList, hs, arrived, ReadOutcome.ok, ReadOutcome.data,
      List.map_cons, List.cons_append]
    rw [recvLoop_message n _ g hf, recvLoop_message m _ g hf]
    exact ih n m _ _ hfs (by simp [arrived]) (by simp; omega) (by simp; omega)

/-- Replacing the read script and the read counter commutes with the steps of
the exchange that come before the first read. -/
theorem write_withReads (st : State) (reads : List ReadOutcome) (calls : Nat) (f : Frame) :
    ((withReads st reads calls).pbs.sock.Lock.UpRef.writeStringList f).2 =
      { (st.pbs.sock.Lock.UpRef.writeStringList f).2 with
        readScript := reads, readCalls := calls } := by
  unfold MythSocket.writeStringList withReads MythSocket.Lock MythSocket.UpRef
  cases h : st.pbs.sock.writeScript <;> simp [h]

/-- The receive loop has a result whenever every frame a read delivers with
success has a field 0: the fuel is never used up. -/
theorem recvLoop_returns (n : Nat) : ∀ (ok : Bool) (sl : Frame) (sock : MythSocket)
    (g : MythContext), (ok = true → sl ≠ []) →
    (∀ r ∈ sock.readScript, r.ok = true → r.data ≠ []) →
    sock.readScript.length + 1 < n →
    ∃ res, recvLoop n ok sl sock g = some res := by
  induction n with
  | zero => intro ok sl sock g _ _ h; omega
  | succ n ih =>
    intro ok sl sock g hsl hall hn
    cases ok with
    | false => exact ⟨_, recvLoop_stop n sl sock g⟩
    | true =>
      cases sl with
      | nil => exact absurd rfl (hsl rfl)
      | cons a t =>
        have h0 : (a :: t)[0]? = some a := by simp
        by_cases hb : a = "BACKEND_MESSAGE"
        · subst hb
          rw [recvLoop_message n sock g h0]
          cases hs : sock.readScript with
          | nil =>
            obtain ⟨n, rfl⟩ : ∃ k, n = k + 1 := ⟨n - 1, by omega⟩
            simp only [MythSocket.readStringList, hs]
            exact ⟨_, recvLoop_stop n _ _ _⟩
          | cons r rs =>
            rw [hs] at hn hall
            simp only [List.length_cons] at hn
            simp only [MythSocket.readStringList, hs]
            apply ih
            · exact hall r (List.mem_cons_self _ _)
            · intro x hx
              exact hall x (List.mem_cons_of_mem _ hx)
            · simp; omega
        · exact ⟨_, recvLoop_reply n sock g h0 hb⟩

/-- The exchange has a result whenever every frame a read delivers with success
has a field 0. -/
theorem exchange_returns (st : State) (request : Frame) (m : Nat)
    (hall : ∀ r ∈ st.pbs.sock.readScript, r.ok = true → r.data ≠ []) :
    ∃ res, SendReceiveStringList st request m = some res := by
  have hs1 : (st.pbs.sock.Lock.UpRef.writeStringList request).2.readScript =
      st.pbs.sock.readScript := by
    rw [writeStringList_readScript]; rfl
  have key : ∃ res, recvLoop
      ((st.pbs.sock.Lock.UpRef.writeStringList request).2.readScript.length + 2)
      ((st.pbs.sock.Lock.UpRef.writeStringList request).2.readStringList []).1
      ((st.pbs.sock.Lock.UpRef.writeStringList request).2.readStringList []).2.1
      ((st.pbs.sock.Lock.UpRef.writeStringList request).2.readStringList []).2.2
      st.gContext = some res := by
    apply recvLoop_returns
    · unfold MythSocket.readStringList
      rw [hs1]
      cases hr : st.pbs.sock.readScript with
      | nil => simp
      | cons r rs =>
        simp only
        exact hall r (by rw [hr]; exact List.mem_cons_self _ _)
    · unfold MythSocket.readStringList
      rw [hs1]
      cases hr : st.pbs.sock.readScript with
      | nil => simp
      | cons r rs =>
        simp only
        intro x hx
        exact hall x (by rw [hr]; exact List.mem_cons_of_mem _ hx)
    · rw [readStringList_length]; omega
  obtain ⟨⟨ok, sl, sock, g⟩, hres⟩ := key
  unfold SendReceiveStringList
  simp only [readStringList_buffer _ request]
  rw [hres]
  simp only
  split
  · exact ⟨_, rfl⟩
  · split <;> exact ⟨_, rfl⟩

/-! ## The exchange: properties -/

/-- C1: when the frames to be read are `N` successfully read frames whose
field 0 is `BACKEND_MESSAGE` and which have at least 2 fields, followed by one
successfully read non-empty frame `R` whose field 0 is not `BACKEND_MESSAGE`,
`SendReceiveStringList` with `min_reply_length` 0 returns true, leaves `R` in
the caller's list, makes exactly `N + 1` reads (the frames after `R` stay
unread) and dispatches exactly the `N` events (field 1, fields 2..) of the
message frames, in arrival order. -/
theorem C1_messages_then_reply (st : State) (request : Frame) (notifs : List Frame)
    (R : Frame) (later : List ReadOutcome)
    (hN : ∀ f ∈ notifs, f[0]? = some "BACKEND_MESSAGE" ∧ 2 ≤ f.length)
    (hR : R ≠ []) (hR0 : R[0]? ≠ some "BACKEND_MESSAGE")
    (hs : st.pbs.sock.readScript = notifs.map arrived ++ arrived R :: later) :
    ∃ st1 : State,
      SendReceiveStringList st request 0 = some (true, R, st1) ∧
      st1.pbs.sock.readCalls = st.pbs.sock.readCalls + notifs.length + 1 ∧
      st1.pbs.sock.readScript = later ∧
      st1.gContext.dispatched = st.gContext.dispatched ++ notifs.map eventOf := by
  obtain ⟨r0, rest, rfl⟩ : ∃ r0 rest, R = r0 :: rest := by
    cases R with
    | nil => exact absurd rfl hR
    | cons a t => exact ⟨a, t, rfl⟩
  have h0 : (r0 :: rest)[0]? = some r0 := by simp
  have hne : r0 ≠ "BACKEND_MESSAGE" := fun h => hR0 (by rw [h0, h])
  obtain ⟨st1, h1, h2, h3, _, h5⟩ :=
    exchange_messages st request 0 notifs later h0 hne (fun f hf => (hN f hf).1) hs
  have hfilter : notifs.filter (fun f => decide (2 ≤ f.length)) = notifs := by
    rw [List.filter_eq_self]
    intro f hf
    exact decide_eq_true (hN f hf).2
  rw [hfilter] at h5
  refine ⟨st1, ?_, h2, h3, h5⟩
  rw [h1]
  simp

/-- C1 at two message frames followed by the reply `["OK"]` and a further frame. -/
theorem C1_messages_then_reply_witness :
    ∃ st1 : State,
      SendReceiveStringList
          (stateOf [arrived ["BACKEND_MESSAGE", "RECORDING_LIST_CHANGE", "1", "2"],
                    arrived ["BACKEND_MESSAGE", "CLEAR_SETTINGS_CACHE"],
                    arrived ["OK"], arrived ["LATER"]] [true])
          ["GO_TO_SLEEP"] 0 = some (true, ["OK"], st1) ∧
      st1.pbs.sock.readCalls = 0 + 2 + 1 ∧
      st1.pbs.sock.readScript = [arrived ["LATER"]] ∧
      st1.gContext.dispatched =
        [] ++ [{ message := "RECORDING_LIST_CHANGE", extradata := ["1", "2"] },
               { message := "CLEAR_SETTINGS_CACHE", extradata := [] }] :=
  C1_messages_then_reply
    (stateOf [arrived ["BACKEND_MESSAGE", "RECORDING_LIST_CHANGE", "1", "2"],
              arrived ["BACKEND_MESSAGE", "CLEAR_SETTINGS_CACHE"],
              arrived ["OK"], arrived ["LATER"]] [true])
    ["GO_TO_SLEEP"]
    [["BACKEND_MESSAGE", "RECORDING_LIST_CHANGE", "1", "2"],
     ["BACKEND_MESSAGE", "CLEAR_SETTINGS_CACHE"]]
    ["OK"] [arrived ["LATER"]] (by decide) (by decide) (by decide) rfl

/-- C4, as the code has it: `SendReceiveStringList` does not look at the result
of `writeStringList`. Whatever the write returns, the exchange is the one made
when the write succeeds, and it makes at least one read. -/
theorem C4_write_result_ignored (st : State) (request : Frame) (m : Nat) :
    SendReceiveStringList st request m =
        SendReceiveStringList (withWrites st (true :: st.pbs.sock.writeScript.tail)) request m ∧
    ∀ r : Bool × Frame × State, SendReceiveStringList st request m = some r →
      st.pbs.sock.readCalls + 1 ≤ r.2.2.pbs.sock.readCalls := by
  constructor
  · unfold SendReceiveStringList withWrites MythSocket.writeStringList MythSocket.Lock
      MythSocket.UpRef
    cases h : st.pbs.sock.writeScript <;> simp [h]
  · intro r h
    unfold SendReceiveStringList at h
    simp only [readStringList_buffer _ request] at h
    cases hl : recvLoop
        ((st.pbs.sock.Lock.UpRef.writeStringList request).2.readScript.length + 2)
        ((st.pbs.sock.Lock.UpRef.writeStringList request).2.readStringList []).1
        ((st.pbs.sock.Lock.UpRef.writeStringList request).2.readStringList []).2.1
        ((st.pbs.sock.Lock.UpRef.writeStringList request).2.readStringList []).2.2
        st.gContext with
    | none => rw [hl] at h; simp at h
    | some res =>
      obtain ⟨ok, sl, sock, g⟩ := res
      have hmono := recvLoop_readCalls _ _ _ _ _ _ hl
      have hread : st.pbs.sock.readCalls + 1 =
          ((st.pbs.sock.Lock.UpRef.writeStringList request).2.readStringList []).2.2.readCalls := by
        unfold MythSocket.readStringList
        cases hw : (st.pbs.sock.Lock.UpRef.writeStringList request).2.readScript <;>
          simp [writeStringList_readCalls, MythSocket.Lock, MythSocket.UpRef]
      rw [hl] at h
      simp only at h
      have hfin : r.2.2.pbs.sock.readCalls = sock.readCalls := by
        split at h <;> [skip; split at h] <;>
          (injection h with h; subst h; simp [MythSocket.Unlock, MythSocket.DownRef])
      rw [hfin, hread]
      exact hmono

/-- C4 amended, at a socket whose write fails and whose next frame is `["OK"]`. -/
theorem C4_write_result_ignored_witness :
    SendReceiveStringList (stateOf [arrived ["OK"]] [false]) ["GO_TO_SLEEP"] 1 =
        SendReceiveStringList
          (withWrites (stateOf [arrived ["OK"]] [false])
            (true :: (stateOf [arrived ["OK"]] [false]).pbs.sock.writeScript.tail))
          ["GO_TO_SLEEP"] 1 ∧
    (stateOf [arrived ["OK"]] [false]).pbs.sock.readCalls + 1 ≤
      (stateAfter [["GO_TO_SLEEP"]] 1).pbs.sock.readCalls :=
  ⟨(C4_write_result_ignored (stateOf [arrived ["OK"]] [false]) ["GO_TO_SLEEP"] 1).1,
   (C4_write_result_ignored (stateOf [arrived ["OK"]] [false]) ["GO_TO_SLEEP"] 1).2
     (true, ["OK"], stateAfter [["GO_TO_SLEEP"]] 1) (by decide)⟩

/-- C4 as stated fails: with a failing write and the frame `["OK"]` waiting,
`SendReceiveStringList` returns true with `["OK"]`, having made one read. -/
theorem C4_counterexample :
    ((stateOf [arrived ["OK"]] [false]).pbs.sock.Lock.UpRef.writeStringList
        ["GO_TO_SLEEP"]).1 = false ∧
    (SendReceiveStringList (stateOf [arrived ["OK"]] [false]) ["GO_TO_SLEEP"] 1).map
        (fun r => (r.1, r.2.1, r.2.2.pbs.sock.readCalls)) = some (true, ["OK"], 1) := by
  decide

/-- C5, as the code has it: a successfully read frame that is exactly
`["BACKEND_MESSAGE"]` is not the reply. The loop reads it, dispatches no event
for it and goes on reading: the exchange is the one made on the script without
that frame, with one more read counted. -/
theorem C5_bare_message_consumed (st : State) (request : Frame) (m : Nat) (pre : List Frame)
    (later : List ReadOutcome)
    (hpre : ∀ f ∈ pre, f[0]? = some "BACKEND_MESSAGE")
    (hs : st.pbs.sock.readScript =
      pre.map arrived ++ arrived ["BACKEND_MESSAGE"] :: later) :
    SendReceiveStringList st request m =
      SendReceiveStringList
        (withReads st (pre.map arrived ++ later) (st.pbs.sock.readCalls + 1)) request m := by
  have hs1 : (st.pbs.sock.Lock.UpRef.writeStringList request).2.readScript =
      pre.map arrived ++ arrived ["BACKEND_MESSAGE"] :: later := by
    rw [writeStringList_readScript]; exact hs
  have hc1 : (st.pbs.sock.Lock.UpRef.writeStringList request).2.readCalls =
      st.pbs.sock.readCalls := by
    rw [writeStringList_readCalls]; rfl
  have key := recvLoop_skip_bare later pre
    ((st.pbs.sock.Lock.UpRef.writeStringList request).2.readScript.length + 2)
    ((pre.map arrived ++ later).length + 2)
    (st.pbs.sock.Lock.UpRef.writeStringList request).2 st.gContext hpre hs1
    (by omega) (by omega)
  unfold SendReceiveStringList
  simp only [readStringList_buffer _ request, write_withReads]
  rw [key, hc1]
  simp only [List.length_append, List.length_map]
  rfl

/-- C5 amended, at a bare frame read after one message frame and before the
reply. -/
theorem C5_bare_message_consumed_witness :
    SendReceiveStringList
        (stateOf [arrived ["BACKEND_MESSAGE", "X"], arrived ["BACKEND_MESSAGE"],
                  arrived ["OK"]] [true]) ["GO_TO_SLEEP"] 1 =
      SendReceiveStringList
        (withReads
          (stateOf [arrived ["BACKEND_MESSAGE", "X"], arrived ["BACKEND_MESSAGE"],
                    arrived ["OK"]] [true])
          ([["BACKEND_MESSAGE", "X"]].map arrived ++ [arrived ["OK"]])
          ((stateOf [arrived ["BACKEND_MESSAGE", "X"], arrived ["BACKEND_MESSAGE"],
                     arrived ["OK"]] [true]).pbs.sock.readCalls + 1))
        ["GO_TO_SLEEP"] 1 :=
  C5_bare_message_consumed
    (stateOf [arrived ["BACKEND_MESSAGE", "X"], arrived ["BACKEND_MESSAGE"],
              arrived ["OK"]] [true])
    ["GO_TO_SLEEP"] 1 [["BACKEND_MESSAGE", "X"]] [arrived ["OK"]] (by decide) rfl

/-- C5 as stated fails: with `["BACKEND_MESSAGE"]` and then `["OK"]` to be read,
`SendReceiveStringList` with `min_reply_length` 0 does not stop at the first
frame; it makes two reads and leaves `["OK"]` in the caller's list. -/
theorem C5_counterexample :
    (SendReceiveStringList (stateOf [arrived ["BACKEND_MESSAGE"], arrived ["OK"]] [true])
        ["GO_TO_SLEEP"] 0).map (fun r => (r.1, r.2.1)) ≠ some (true, ["BACKEND_MESSAGE"]) ∧
    (SendReceiveStringList (stateOf [arrived ["BACKEND_MESSAGE"], arrived ["OK"]] [true])
        ["GO_TO_SLEEP"] 0).map
        (fun r => (r.1, r.2.1, r.2.2.pbs.sock.readCalls, r.2.2.gContext.dispatched)) =
      some (true, ["OK"], 2, []) := by
  decide

/-! ## Reference counting -/

/-- While the `int` counter does not overflow, `k` calls of `UpRef` add `k`. -/
theorem upRefs_refCount (k : Nat) : ∀ st : State,
    0 ≤ st.pbs.refCount → st.pbs.refCount + k ≤ 2147483647 →
    (upRefs k st).pbs.refCount = st.pbs.refCount + k ∧ (upRefs k st).parent = st.parent := by
  induction k with
  | zero => intro st _ _; simp [upRefs]
  | succ k ih =>
    intro st h0 h1
    push_cast at h1
    have hu : (UpRef st).pbs.refCount = st.pbs.refCount + 1 := by
      simp only [UpRef, wrapInt]
      omega
    obtain ⟨h2, h3⟩ := ih (UpRef st) (by rw [hu]; omega) (by rw [hu]; omega)
    simp only [upRefs]
    rw [h2, h3, hu]
    push_cast
    exact ⟨by omega, rfl⟩

/-- Whatever the number of calls, `k` calls of `UpRef` leave the counter at the
wrapped sum. -/
theorem upRefs_wrap (k : Nat) : ∀ st : State,
    wrapInt (upRefs k st).pbs.refCount = wrapInt (st.pbs.refCount + k) := by
  induction k with
  | zero => intro st; simp [upRefs]
  | succ k ih =>
    intro st
    simp only [upRefs]
    rw [ih (UpRef st)]
    simp only [UpRef, wrapInt]
    push_cast
    omega

/-- While the count stays at or above zero, `DownRef` returns false and leaves
the registry alone. -/
theorem downRefs_held (k : Nat) : ∀ st : State, (k : Int) ≤ st.pbs.refCount →
    st.pbs.refCount ≤ 2147483647 →
    (downRefs k st).1 = List.replicate k false ∧
    (downRefs k st).2.parent = st.parent ∧
    (downRefs k st).2.pbs.refCount = st.pbs.refCount - k := by
  induction k with
  | zero => intro st _ _; simp [downRefs]
  | succ k ih =>
    intro st h hmax
    push_cast at h
    have hw : wrapInt (st.pbs.refCount - 1) = st.pbs.refCount - 1 := by
      simp only [wrapInt]
      omega
    have hpos : ¬ (st.pbs.refCount - 1 < 0) := by omega
    have hd : DownRef st =
        (false, { st with pbs := { st.pbs with refCount := st.pbs.refCount - 1 } }) := by
      simp [DownRef, hw, hpos]
    obtain ⟨h1, h2, h3⟩ := ih (DownRef st).2 (by rw [hd]; simp; omega)
      (by rw [hd]; simp; omega)
    simp only [downRefs]
    rw [hd] at h1 h2 h3 ⊢
    refine ⟨?_, ?_, ?_⟩
    · simp [h1, List.replicate_succ]
    · simpa using h2
    · rw [h3]; push_cast; omega

theorem downRefs_succ (k : Nat) : ∀ st : State,
    downRefs (k + 1) st =
      ((downRefs k st).1 ++ [(DownRef (downRefs k st).2).1], (DownRef (downRefs k st).2).2) := by
  induction k with
  | zero => intro st; simp [downRefs]
  | succ k ih =>
    intro st
    have h := ih (DownRef st).2
    rw [downRefs, h]
    simp [downRefs]

/-- A `DownRef` that takes the counter below zero returns true and notifies
the registry once. -/
theorem DownRef_below_zero (st : State) (h : wrapInt (st.pbs.refCount - 1) < 0) :
    (DownRef st).1 = true ∧ (DownRef st).2.parent.deleted = st.parent.deleted + 1 := by
  simp [DownRef, h, MainServer.DeletePBS]

/-- C3, as the code has it: for a freshly constructed `PlaybackSock`
(`refCount` 0) and every `k` up to 2147483647, the largest value the `int`
counter holds, after `k` sequential `UpRef` calls the first `k` sequential
`DownRef` calls all return false and leave the count of `DeletePBS`
notifications unchanged, and the `(k + 1)`-th `DownRef` returns true and raises
that count by exactly one. -/
theorem C3_last_release_tears_down (parent : MainServer) (gContext : MythContext)
    (lsock : MythSocket) (lhostname : String) (wantevents : Bool) (k : Nat)
    (hk : k ≤ 2147483647) :
    (construct parent gContext lsock lhostname wantevents).pbs.refCount = 0 ∧
    (downRefs k (upRefs k (construct parent gContext lsock lhostname wantevents))).1 =
      List.replicate k false ∧
    (downRefs k (upRefs k (construct parent gContext lsock lhostname wantevents))).2.parent.deleted =
      parent.deleted ∧
    (downRefs (k + 1) (upRefs k (construct parent gContext lsock lhostname wantevents))).1 =
      List.replicate k false ++ [true] ∧
    (downRefs (k + 1)
      (upRefs k (construct parent gContext lsock lhostname wantevents))).2.parent.deleted =
      parent.deleted + 1 := by
  have h0 : (construct parent gContext lsock lhostname wantevents).pbs.refCount = 0 := rfl
  have hp : (construct parent gContext lsock lhostname wantevents).parent = parent := rfl
  obtain ⟨hu1, hu2⟩ := upRefs_refCount k (construct parent gContext lsock lhostname wantevents)
    (by rw [h0]) (by rw [h0]; omega)
  rw [h0] at hu1
  rw [hp] at hu2
  obtain ⟨hd1, hd2, hd3⟩ :=
    downRefs_held k (upRefs k (construct parent gContext lsock lhostname wantevents))
      (by rw [hu1]; omega) (by rw [hu1]; omega)
  rw [hu2] at hd2
  rw [hu1] at hd3
  have hw : wrapInt ((downRefs k (upRefs k (construct parent gContext lsock lhostname
      wantevents))).2.pbs.refCount - 1) = -1 := by
    rw [hd3]
    simp only [wrapInt]
    omega
  refine ⟨h0, hd1, by rw [hd2], ?_, ?_⟩
  · rw [downRefs_succ, hd1]
    simp [DownRef, hw]
  · rw [downRefs_succ]
    simp [DownRef, hw, MainServer.DeletePBS, hd2]

/-- C3 amended, at `k = 2` on a fresh connection. -/
theorem C3_last_release_tears_down_witness :
    (stateOf [] []).pbs.refCount = 0 ∧
    (downRefs 2 (upRefs 2 (stateOf [] []))).1 = List.replicate 2 false ∧
    (downRefs 2 (upRefs 2 (stateOf [] []))).2.parent.deleted = 0 ∧
    (downRefs (2 + 1) (upRefs 2 (stateOf [] []))).1 = List.replicate 2 false ++ [true] ∧
    (downRefs (2 + 1) (upRefs 2 (stateOf [] []))).2.parent.deleted = 0 + 1 :=
  C3_last_release_tears_down { deleted := 0 } { hostName := "master", dispatched := [] }
    (sockOf [] []) "slave" false 2 (by decide)

/-- C3 as stated fails: after 2147483649 `UpRef` calls on a fresh connection
the `int` counter has wrapped to -2147483647, and the first `DownRef` already
returns true and notifies the registry. -/
theorem C3_counterexample :
    (DownRef (upRefs 2147483649 (stateOf [] []))).1 = true ∧
    (DownRef (upRefs 2147483649 (stateOf [] []))).2.parent.deleted = 1 := by
  have h := upRefs_wrap 2147483649 (stateOf [] [])
  have h0 : (stateOf [] []).pbs.refCount = 0 := rfl
  rw [h0] at h
  have hw : wrapInt ((upRefs 2147483649 (stateOf [] [])).pbs.refCount - 1) = -2147483648 := by
    simp only [wrapInt] at h ⊢
    push_cast at h
    omega
  have hlt : wrapInt ((upRefs 2147483649 (stateOf [] [])).pbs.refCount - 1) < 0 := by
    rw [hw]; decide
  have hpar : (upRefs 2147483649 (stateOf [] [])).parent = (stateOf [] []).parent := by
    have hgen : ∀ (k : Nat) (st : State), (upRefs k st).parent = st.parent := by
      intro k
      induction k with
      | zero => intro st; rfl
      | succ k ih => intro st; simp only [upRefs]; rw [ih (UpRef st)]; rfl
    exact hgen _ _
  obtain ⟨h1, h2⟩ := DownRef_below_zero _ hlt
  exact ⟨h1, by rw [h2, hpar]; rfl⟩

/-! ## What a finished exchange guarantees -/

/-- The receive loop does not write. -/
theorem recvLoop_written (n : Nat) : ∀ (ok : Bool) (sl : Frame) (sock : MythSocket)
    (g : MythContext) (r : Bool × Frame × MythSocket × MythContext),
    recvLoop n ok sl sock g = some r → r.2.2.1.written = sock.written := by
  induction n with
  | zero => intro ok sl sock g r h; simp [recvLoop] at h
  | succ n ih =>
    intro ok sl sock g r h
    cases ok with
    | false =>
      rw [recvLoop_stop] at h
      injection h with h; subst h; rfl
    | true =>
      cases h0 : sl[0]? with
      | none => simp [recvLoop, h0] at h
      | some field0 =>
        by_cases hb : field0 = "BACKEND_MESSAGE"
        · subst hb
          rw [recvLoop_message n sock g h0] at h
          have h1 := ih _ _ _ _ r h
          have h2 : (sock.readStringList []).2.2.written = sock.written := by
            unfold MythSocket.readStringList
            cases sock.readScript <;> rfl
          rw [h1, h2]
        · rw [recvLoop_reply n sock g h0 hb] at h
          injection h with h; subst h; rfl

/-- An exchange that returns has handed exactly its request to the socket, and
when it returns true the frame left has at least `min_reply_length` fields. -/
theorem exchange_result (st : State) (request : Frame) (m : Nat) (ok : Bool) (reply : Frame)
    (st1 : State) (h : SendReceiveStringList st request m = some (ok, reply, st1)) :
    st1.pbs.sock.written = st.pbs.sock.written ++ [request] ∧
    (ok = true → m ≤ reply.length) := by
  unfold SendReceiveStringList at h
  simp only [readStringList_buffer _ request] at h
  cases hl : recvLoop
      ((st.pbs.sock.Lock.UpRef.writeStringList request).2.readScript.length + 2)
      ((st.pbs.sock.Lock.UpRef.writeStringList request).2.readStringList []).1
      ((st.pbs.sock.Lock.UpRef.writeStringList request).2.readStringList []).2.1
      ((st.pbs.sock.Lock.UpRef.writeStringList request).2.readStringList []).2.2
      st.gContext with
  | none => rw [hl] at h; simp at h
  | some res =>
    obtain ⟨ok1, sl, sock, g⟩ := res
    have hw := recvLoop_written _ _ _ _ _ _ hl
    have hw2 : ((st.pbs.sock.Lock.UpRef.writeStringList request).2.readStringList []).2.2.written
        = st.pbs.sock.written ++ [request] := by
      unfold MythSocket.readStringList
      cases hr : (st.pbs.sock.Lock.UpRef.writeStringList request).2.readScript <;>
        simp [writeStringList_written, MythSocket.Lock, MythSocket.UpRef]
    simp only at hw
    rw [hw2] at hw
    rw [hl] at h
    simp only at h
    split at h
    · injection h with h
      simp only [Prod.mk.injEq] at h
      obtain ⟨h1, h2, h3⟩ := h
      subst h1 h3
      exact ⟨by simp [MythSocket.Unlock, MythSocket.DownRef, hw], by simp⟩
    · split at h
      · injection h with h
        simp only [Prod.mk.injEq] at h
        obtain ⟨h1, h2, h3⟩ := h
        subst h1 h3
        exact ⟨by simp [MythSocket.Unlock, MythSocket.DownRef, hw], by simp⟩
      · rename_i hlen
        injection h with h
        simp only [Prod.mk.injEq] at h
        obtain ⟨h1, h2, h3⟩ := h
        subst h1 h2 h3
        refine ⟨by simp [MythSocket.Unlock, MythSocket.DownRef, hw], fun _ => ?_⟩
        by_cases hm : m = 0
        · omega
        · have := not_and.mp hlen hm
          omega

/-- After an exchange that returned true with a positive minimum, field 0 of
the frame exists. -/
theorem exchange_field0 (st : State) (request : Frame) (m : Nat) (reply : Frame) (st1 : State)
    (hm : 1 ≤ m) (h : SendReceiveStringList st request m = some (true, reply, st1)) :
    ∃ field0 rest, reply = field0 :: rest := by
  have hlen := (exchange_result st request m true reply st1 h).2 rfl
  cases reply with
  | nil => simp at hlen; omega
  | cons a t => exact ⟨a, t, rfl⟩

/-- After an exchange that returned true with a minimum of 2 or more, fields 0
and 1 of the frame exist. -/
theorem exchange_field1 (st : State) (request : Frame) (m : Nat) (reply : Frame) (st1 : State)
    (hm : 2 ≤ m) (h : SendReceiveStringList st request m = some (true, reply, st1)) :
    ∃ field0 field1 rest, reply = field0 :: field1 :: rest := by
  have hlen := (exchange_result st request m true reply st1 h).2 rfl
  cases reply with
  | nil => simp at hlen; omega
  | cons a t =>
    cases t with
    | nil => simp at hlen; omega
    | cons b t => exact ⟨a, b, t, rfl⟩

/-! ## The verbs: properties -/

/-- C9: `CheckFile` makes the exchange on `["QUERY_CHECKFILE", "0"]` followed
by the encoded fields of `p`, with minimum reply length 2, and that frame is
what it hands to the socket. If the exchange returns true, `p.pathname` becomes
reply field 1, the other members of `p` stay as they were, and the result is
true exactly when reply field 0 converts to a non-zero integer. If the
exchange returns false, the result is false and `p` is unchanged. -/
theorem C9_CheckFile {P : Type} (enc : ProgramInfo P → Frame) (st : State)
    (p : ProgramInfo P) (ok : Bool) (reply : Frame) (st1 : State)
    (h : SendReceiveStringList st (["QUERY_CHECKFILE", "0"] ++ enc p) 2 =
      some (ok, reply, st1)) :
    st1.pbs.sock.written = st.pbs.sock.written ++ [["QUERY_CHECKFILE", "0"] ++ enc p] ∧
    (ok = true → ∃ field0 field1 rest, reply = field0 :: field1 :: rest ∧
      CheckFile enc st p =
        some (decide (toInt field0 ≠ 0), { pathname := field1, other := p.other }, st1)) ∧
    (ok = false → CheckFile enc st p = some (false, p, st1)) := by
  have hreq : ToStringList enc p (["QUERY_CHECKFILE"] ++ [number 0]) =
      ["QUERY_CHECKFILE", "0"] ++ enc p := rfl
  refine ⟨(exchange_result _ _ _ _ _ _ h).1, ?_, ?_⟩
  · intro hok
    subst hok
    obtain ⟨f0, f1, rest, rfl⟩ := exchange_field1 _ _ _ _ _ (Nat.le_refl 2) h
    refine ⟨f0, f1, rest, rfl, ?_⟩
    unfold CheckFile
    simp only [hreq, h]
    simp
  · intro hok
    subst hok
    unfold CheckFile
    simp only [hreq, h]
    simp

/-- C9 at the sample record: once with the reply `["1", "/new/path.mpg"]`, once
with a failed read. -/
theorem C9_CheckFile_witness :
    CheckFile sampleEnc (stateOf [arrived ["1", "/new/path.mpg"]] [true]) sampleProgram =
      some (true, { pathname := "/new/path.mpg", other := ("News", 1001) },
        stateAfter [["QUERY_CHECKFILE", "0", "News", "1001", "/old/path.mpg"]] 1) ∧
    CheckFile sampleEnc (stateOf [failed] [true]) sampleProgram =
      some (false, sampleProgram,
        stateAfter [["QUERY_CHECKFILE", "0", "News", "1001", "/old/path.mpg"]] 1) := by
  constructor
  · obtain ⟨field0, field1, rest, hr, hc⟩ :=
      (C9_CheckFile sampleEnc (stateOf [arrived ["1", "/new/path.mpg"]] [true]) sampleProgram
        true ["1", "/new/path.mpg"]
        (stateAfter [["QUERY_CHECKFILE", "0", "News", "1001", "/old/path.mpg"]] 1)
        (by decide)).2.1 rfl
    cases hr
    rw [hc]
    decide
  · exact (C9_CheckFile sampleEnc (stateOf [failed] [true]) sampleProgram false []
      (stateAfter [["QUERY_CHECKFILE", "0", "News", "1001", "/old/path.mpg"]] 1)
      (by decide)).2.2 rfl

/-- C6: `IsBusy` makes the exchange on the frame
`["QUERY_REMOTEENCODER <c>", "IS_BUSY", "<t>"]`, `c` and `t` in decimal, and that
frame is what it hands to the socket. When the exchange returns true and an
input record is requested, the result is true exactly when reply field 0
converts to a non-zero integer and the fields from 1 on hydrate, and the input
record is the one hydration leaves. On the reply `["0"]` the result is false,
whether or not an input record is requested. -/
theorem C6_IsBusy {I : Type} (cls : InputInfoClass I) (st : State) (c t : Int) (input : I)
    (ok : Bool) (reply : Frame) (st1 : State)
    (h : SendReceiveStringList st
      ["QUERY_REMOTEENCODER " ++ number c, "IS_BUSY", number t] 1 = some (ok, reply, st1)) :
    st1.pbs.sock.written =
      st.pbs.sock.written ++ [["QUERY_REMOTEENCODER " ++ number c, "IS_BUSY", number t]] ∧
    (ok = true → ∃ field0 rest, reply = field0 :: rest ∧
      IsBusy cls st c (some input) t =
        some (decide (toInt field0 ≠ 0) && (cls.FromStringList input rest).1,
          some (cls.FromStringList input rest).2.1, st1)) ∧
    (reply = ["0"] →
      IsBusy cls st c none t = some (false, none, st1) ∧
      IsBusy cls st c (some input) t =
        some (false, some (cls.FromStringList input []).2.1, st1)) := by
  have hreq : [remoteEncoder c] ++ ["IS_BUSY"] ++ [number t] =
      ["QUERY_REMOTEENCODER " ++ number c, "IS_BUSY", number t] := rfl
  refine ⟨(exchange_result _ _ _ _ _ _ h).1, ?_, ?_⟩
  · intro hok
    subst hok
    obtain ⟨f0, rest, rfl⟩ := exchange_field0 _ _ _ _ _ (Nat.le_refl 1) h
    refine ⟨f0, rest, rfl, ?_⟩
    unfold IsBusy
    simp only [hreq, h]
    cases hp : (cls.FromStringList input rest).1 <;> simp [hp]
  · intro hr
    subst hr
    have h0 : toInt "0" = 0 := by decide
    unfold IsBusy
    simp only [hreq, h]
    cases hp : (cls.FromStringList input []).1 <;> simp [hp, h0]

/-- C6 at tuner 3 and buffer time 5: the replies `["1", "Tuner", "7"]` and `["0"]`. -/
theorem C6_IsBusy_witness :
    IsBusy sampleInputClass (stateOf [arrived ["1", "Tuner", "7"]] [true]) 3
        (some sampleInputClass.fresh) 5 =
      some (true, some { name := "Tuner", sourceid := 7 },
        stateAfter [["QUERY_REMOTEENCODER 3", "IS_BUSY", "5"]] 1) ∧
    IsBusy sampleInputClass (stateOf [arrived ["0"]] [true]) 3 none 5 =
      some (false, none, stateAfter [["QUERY_REMOTEENCODER 3", "IS_BUSY", "5"]] 1) ∧
    IsBusy sampleInputClass (stateOf [arrived ["0"]] [true]) 3
        (some sampleInputClass.fresh) 5 =
      some (false, some sampleInputClass.fresh,
        stateAfter [["QUERY_REMOTEENCODER 3", "IS_BUSY", "5"]] 1) := by
  constructor
  · obtain ⟨field0, rest, hr, hb⟩ :=
      (C6_IsBusy sampleInputClass (stateOf [arrived ["1", "Tuner", "7"]] [true]) 3 5
        sampleInputClass.fresh true ["1", "Tuner", "7"]
        (stateAfter [["QUERY_REMOTEENCODER 3", "IS_BUSY", "5"]] 1) (by decide)).2.1 rfl
    cases hr
    rw [hb]
    decide
  · exact (C6_IsBusy sampleInputClass (stateOf [arrived ["0"]] [true]) 3 5
      sampleInputClass.fresh true ["0"]
      (stateAfter [["QUERY_REMOTEENCODER 3", "IS_BUSY", "5"]] 1) (by decide)).2.2 rfl

/-- C10: with `strlist[i]` partial, each verb that reads reply fields after
`SendReceiveStringList` returned true with a positive minimum (field 0 with
minimum 1 in `GoToSleep`, `CheckRecordingActive`, `StopRecording`,
`DeleteRecording`, `GetEncoderState`, `EncoderIsRecording`, `StartRecording`
and `SetSignalMonitoringRate`; fields 0 and 1 with minimum 2 in `CheckFile` and
`GetMaxBitrate`) has no result only when the exchange itself has none: the
out-of-range branch of the verb's own field accesses is never taken, whatever
the socket does. -/
theorem C10_reply_fields_in_bounds {P : Type} (enc : ProgramInfo P → Frame)
    (kState_Error rsUnknown : Int) (st : State) (pginfo : ProgramInfo P) (force : Bool)
    (c rate notify : Int) :
    (GoToSleep st = none ↔
      SendReceiveStringList st ["GO_TO_SLEEP"] 1 = none) ∧
    (CheckRecordingActive enc st pginfo = none ↔
      SendReceiveStringList st (ToStringList enc pginfo ["CHECK_RECORDING"]) 1 = none) ∧
    (StopRecording enc st pginfo = none ↔
      SendReceiveStringList st (ToStringList enc pginfo ["STOP_RECORDING"]) 1 = none) ∧
    (DeleteRecording enc st pginfo force = none ↔
      SendReceiveStringList st (ToStringList enc pginfo
        (if force then ["FORCE_DELETE_RECORDING"] else ["DELETE_RECORDING"])) 1 = none) ∧
    (GetEncoderState kState_Error st c = none ↔
      SendReceiveStringList st ([remoteEncoder c] ++ ["GET_STATE"]) 1 = none) ∧
    (EncoderIsRecording enc st c pginfo = none ↔
      SendReceiveStringList st (ToStringList enc pginfo ([remoteEncoder c] ++ ["MATCHES_RECORDING"])) 1 = none) ∧
    (StartRecording enc rsUnknown st c pginfo = none ↔
      SendReceiveStringList st (ToStringList enc pginfo ([remoteEncoder c] ++ ["START_RECORDING"])) 1 = none) ∧
    (SetSignalMonitoringRate st c rate notify = none ↔
      SendReceiveStringList st ([remoteEncoder c] ++ ["SET_SIGNAL_MONITORING_RATE"] ++ [number rate] ++
        [number notify]) 1 = none) ∧
    (CheckFile enc st pginfo = none ↔
      SendReceiveStringList st (ToStringList enc pginfo (["QUERY_CHECKFILE"] ++ [number 0])) 2 = none) ∧
    (GetMaxBitrate st c = none ↔
      SendReceiveStringList st ([remoteEncoder c] ++ ["GET_MAX_BITRATE"]) 2 = none) := by
  refine ⟨?_, ?_, ?_, ?_, ?_, ?_, ?_, ?_, ?_, ?_⟩
  · unfold GoToSleep
    try dsimp only
    cases h : SendReceiveStringList st ["GO_TO_SLEEP"] 1 with
    | none => simp [h]
    | some r =>
      obtain ⟨ok, reply, st1⟩ := r
      cases ok with
      | false => simp [h]
      | true =>
        obtain ⟨f0, rest, rfl⟩ := exchange_field0 _ _ _ _ _ (Nat.le_refl 1) h
        simp [h]
  · unfold CheckRecordingActive
    try dsimp only
    cases h : SendReceiveStringList st (ToStringList enc pginfo ["CHECK_RECORDING"]) 1 with
    | none => simp [h]
    | some r =>
      obtain ⟨ok, reply, st1⟩ := r
      cases ok with
      | false => simp [h]
      | true =>
        obtain ⟨f0, rest, rfl⟩ := exchange_field0 _ _ _ _ _ (Nat.le_refl 1) h
        simp [h]
  · unfold StopRecording
    try dsimp only
    cases h : SendReceiveStringList st (ToStringList enc pginfo ["STOP_RECORDING"]) 1 with
    | none => simp [h]
    | some r =>
      obtain ⟨ok, reply, st1⟩ := r
      cases ok with
      | false => simp [h]
      | true =>
        obtain ⟨f0, rest, rfl⟩ := exchange_field0 _ _ _ _ _ (Nat.le_refl 1) h
        simp [h]
  · unfold DeleteRecording
    try dsimp only
    cases h : SendReceiveStringList st (ToStringList enc pginfo
        (if force then ["FORCE_DELETE_RECORDING"] else ["DELETE_RECORDING"])) 1 with
    | none => simp [h]
    | some r =>
      obtain ⟨ok, reply, st1⟩ := r
      cases ok with
      | false => simp [h]
      | true =>
        obtain ⟨f0, rest, rfl⟩ := exchange_field0 _ _ _ _ _ (Nat.le_refl 1) h
        simp [h]
  · unfold GetEncoderState
    try dsimp only
    cases h : SendReceiveStringList st ([remoteEncoder c] ++ ["GET_STATE"]) 1 with
    | none => simp [h]
    | some r =>
      obtain ⟨ok, reply, st1⟩ := r
      cases ok with
      | false => simp [h]
      | true =>
        obtain ⟨f0, rest, rfl⟩ := exchange_field0 _ _ _ _ _ (Nat.le_refl 1) h
        simp [h]
  · unfold EncoderIsRecording
    try dsimp only
    cases h : SendReceiveStringList st (ToStringList enc pginfo ([remoteEncoder c] ++ ["MATCHES_RECORDING"])) 1 with
    | none => simp [h]
    | some r =>
      obtain ⟨ok, reply, st1⟩ := r
      cases ok with
      | false => simp [h]
      | true =>
        obtain ⟨f0, rest, rfl⟩ := exchange_field0 _ _ _ _ _ (Nat.le_refl 1) h
        simp [h]
  · unfold StartRecording
    try dsimp only
    cases h : SendReceiveStringList st (ToStringList enc pginfo ([remoteEncoder c] ++ ["START_RECORDING"])) 1 with
    | none => simp [h]
    | some r =>
      obtain ⟨ok, reply, st1⟩ := r
      cases ok with
      | false => simp [h]
      | true =>
        obtain ⟨f0, rest, rfl⟩ := exchange_field0 _ _ _ _ _ (Nat.le_refl 1) h
        simp [h]
  · unfold SetSignalMonitoringRate
    try dsimp only
    cases h : SendReceiveStringList st ([remoteEncoder c] ++ ["SET_SIGNAL_MONITORING_RATE"] ++ [number rate] ++
        [number notify]) 1 with
    | none => simp [h]
    | some r =>
      obtain ⟨ok, reply, st1⟩ := r
      cases ok with
      | false => simp [h]
      | true =>
        obtain ⟨f0, rest, rfl⟩ := exchange_field0 _ _ _ _ _ (Nat.le_refl 1) h
        simp [h]
  · unfold CheckFile
    try dsimp only
    cases h : SendReceiveStringList st (ToStringList enc pginfo (["QUERY_CHECKFILE"] ++ [number 0])) 2 with
    | none => simp [h]
    | some r =>
      obtain ⟨ok, reply, st1⟩ := r
      cases ok with
      | false => simp [h]
      | true =>
        obtain ⟨f0, f1, rest, rfl⟩ := exchange_field1 _ _ _ _ _ (Nat.le_refl 2) h
        simp [h]
  · unfold GetMaxBitrate
    try dsimp only
    cases h : SendReceiveStringList st ([remoteEncoder c] ++ ["GET_MAX_BITRATE"]) 2 with
    | none => simp [h]
    | some r =>
      obtain ⟨ok, reply, st1⟩ := r
      cases ok with
      | false => simp [h]
      | true =>
        obtain ⟨f0, f1, rest, rfl⟩ := exchange_field1 _ _ _ _ _ (Nat.le_refl 2) h
        simp [h, decodeLongLong]

/-- A read that returns false leaves the caller's list empty. -/
theorem readStringList_failed (s : MythSocket) (buf : Frame)
    (h : (s.readStringList buf).1 = false) : (s.readStringList buf).2.1 = [] := by
  unfold MythSocket.readStringList at h ⊢
  cases hs : s.readScript with
  | nil => rfl
  | cons r rs =>
    rw [hs] at h
    cases r with
    | frame f => simp [ReadOutcome.ok] at h
    | failure => rfl

/-- The receive loop ends either with the flag false and the list empty, or
with the flag true and a list that has a field 0. -/
theorem recvLoop_shape (n : Nat) : ∀ (ok : Bool) (sl : Frame) (sock : MythSocket)
    (g : MythContext) (r : Bool × Frame × MythSocket × MythContext),
    recvLoop n ok sl sock g = some r → (ok = false → sl = []) →
    (r.1 = false → r.2.1 = []) ∧ (r.1 = true → r.2.1 ≠ []) := by
  induction n with
  | zero => intro ok sl sock g r h; simp [recvLoop] at h
  | succ n ih =>
    intro ok sl sock g r h hsl
    cases ok with
    | false =>
      rw [recvLoop_stop] at h
      injection h with h; subst h
      exact ⟨fun _ => hsl rfl, fun hc => by simp at hc⟩
    | true =>
      cases h0 : sl[0]? with
      | none => simp [recvLoop, h0] at h
      | some field0 =>
        by_cases hb : field0 = "BACKEND_MESSAGE"
        · subst hb
          rw [recvLoop_message n sock g h0] at h
          exact ih _ _ _ _ r h (readStringList_failed sock [])
        · rw [recvLoop_reply n sock g h0 hb] at h
          injection h with h; subst h
          refine ⟨fun hc => by simp at hc, fun _ hnil => ?_⟩
          simp only at hnil
          rw [hnil] at h0
          simp at h0

/-- An exchange that returns false with a minimum of at most 1 leaves the
caller's list empty. -/
theorem exchange_failed_empty (st : State) (request : Frame) (m : Nat) (reply : Frame)
    (st1 : State) (hm : m ≤ 1)
    (h : SendReceiveStringList st request m = some (false, reply, st1)) : reply = [] := by
  unfold SendReceiveStringList at h
  simp only [readStringList_buffer _ request] at h
  cases hl : recvLoop
      ((st.pbs.sock.Lock.UpRef.writeStringList request).2.readScript.length + 2)
      ((st.pbs.sock.Lock.UpRef.writeStringList request).2.readStringList []).1
      ((st.pbs.sock.Lock.UpRef.writeStringList request).2.readStringList []).2.1
      ((st.pbs.sock.Lock.UpRef.writeStringList request).2.readStringList []).2.2
      st.gContext with
  | none => rw [hl] at h; simp at h
  | some res =>
    obtain ⟨ok1, sl, sock, g⟩ := res
    obtain ⟨hf, ht⟩ := recvLoop_shape _ _ _ _ _ _ hl (readStringList_failed _ [])
    simp only at hf ht
    rw [hl] at h
    simp only at h
    cases ok1 with
    | false =>
      simp only [Bool.not_false, if_true] at h
      injection h with h
      simp only [Prod.mk.injEq] at h
      rw [← h.2.1]
      exact hf rfl
    | true =>
      have hne := ht rfl
      have hlen : 0 < sl.length := List.length_pos.mpr hne
      simp only [Bool.not_true, Bool.false_eq_true, if_false] at h
      split at h
      · rename_i hc
        omega
      · injection h with h
        simp at h

/-- C8: for `GetDiskSpace`, `IsBusy` and `GetFreeInputs`, whenever the exchange
returns false, whatever frame it leaves in the list, the verb yields its fixed
fallback: `GetDiskSpace` appends nothing to the caller's list, `IsBusy` returns
false and leaves the input record untouched, and `GetFreeInputs` returns the
empty list. -/
theorem C8_fallback_on_failed_exchange {I : Type} (cls : InputInfoClass I) (st st1 : State)
    (reply : Frame) :
    (∀ o_strlist : Frame,
      SendReceiveStringList st ["QUERY_FREE_SPACE"] 0 = some (false, reply, st1) →
      GetDiskSpace st o_strlist = some (o_strlist, st1)) ∧
    (∀ (c t : Int) (busy_input : Option I),
      SendReceiveStringList st ([remoteEncoder c] ++ ["IS_BUSY"] ++ [number t]) 1 =
        some (false, reply, st1) →
      IsBusy cls st c busy_input t = some (false, busy_input, st1)) ∧
    (∀ (fuel : Nat) (c : Int) (excluded_cardids : List Nat),
      SendReceiveStringList st
        ([remoteEncoder c] ++ ["GET_FREE_INPUTS"] ++
          excluded_cardids.map (fun x => number (x : Int))) 0 = some (false, reply, st1) →
      GetFreeInputs cls fuel st c excluded_cardids = some ([], st1)) := by
  refine ⟨?_, ?_, ?_⟩
  · intro o_strlist h
    have he := exchange_failed_empty _ _ _ _ _ (by omega) h
    subst he
    unfold GetDiskSpace
    rw [h]
    simp
  · intro c t busy_input h
    have he := exchange_failed_empty _ _ _ _ _ (by omega) h
    subst he
    unfold IsBusy
    dsimp only
    rw [h]
  · intro fuel c excluded_cardids h
    have he := exchange_failed_empty _ _ _ _ _ (by omega) h
    subst he
    unfold GetFreeInputs
    dsimp only
    rw [h]

/-- C8 at a socket whose first read fails, and at one whose read fails after a
bare message frame. -/
theorem C8_fallback_on_failed_exchange_witness :
    GetDiskSpace (stateOf [failed] [true]) ["1024", "512"] =
      some (["1024", "512"], stateAfter [["QUERY_FREE_SPACE"]] 1) ∧
    IsBusy sampleInputClass (stateOf [failed] [true]) 3 (some sampleInputClass.fresh) 5 =
      some (false, some sampleInputClass.fresh,
        stateAfter [["QUERY_REMOTEENCODER 3", "IS_BUSY", "5"]] 1) ∧
    GetFreeInputs sampleInputClass 8 (stateOf [arrived ["BACKEND_MESSAGE"], failed] [true])
        3 [4] =
      some ([], stateAfter [["QUERY_REMOTEENCODER 3", "GET_FREE_INPUTS", "4"]] 2) :=
  ⟨(C8_fallback_on_failed_exchange sampleInputClass (stateOf [failed] [true])
      (stateAfter [["QUERY_FREE_SPACE"]] 1) []).1 ["1024", "512"] (by decide),
   (C8_fallback_on_failed_exchange sampleInputClass (stateOf [failed] [true])
      (stateAfter [["QUERY_REMOTEENCODER 3", "IS_BUSY", "5"]] 1) []).2.1 3 5
      (some sampleInputClass.fresh) (by decide),
   (C8_fallback_on_failed_exchange sampleInputClass
      (stateOf [arrived ["BACKEND_MESSAGE"], failed] [true])
      (stateAfter [["QUERY_REMOTEENCODER 3", "GET_FREE_INPUTS", "4"]] 2) []).2.2 8 3 [4]
      (by decide)⟩

/-! ## Decoding free inputs -/

/-- The decode loop on a run of valid groups followed by fields that are
absent or fail to hydrate: it collects the records of the groups, in order. -/
theorem hydrateLoop_groups {I : Type} (cls : InputInfoClass I) (hc : Consuming cls)
    (tail : Frame) (htail : tail = [] ∨ (cls.FromStringList cls.fresh tail).1 = false) :
    ∀ (groups : List (Frame × I)) (fuel : Nat) (list : List I),
      (∀ g ∈ groups, ValidGroup cls g.1 g.2) → groups.length < fuel →
      hydrateLoop cls fuel ((groups.map Prod.fst).flatten ++ tail) list =
        some (list ++ groups.map Prod.snd) := by
  intro groups
  induction groups with
  | nil =>
    intro fuel list _ hf
    obtain ⟨fuel, rfl⟩ : ∃ k, fuel = k + 1 := ⟨fuel - 1, by simp at hf; omega⟩
    cases tail with
    | nil => simp [hydrateLoop]
    | cons a t =>
      have hfail : (cls.FromStringList cls.fresh (a :: t)).1 = false := by
        cases htail with
        | inl h => cases h
        | inr h => exact h
      simp [hydrateLoop, hfail]
  | cons g gs ih =>
    intro fuel list hv hf
    obtain ⟨fuel, rfl⟩ : ∃ k, fuel = k + 1 := ⟨fuel - 1, by simp at hf; omega⟩
    have hg : ValidGroup cls g.1 g.2 := hv g (List.mem_cons_self _ _)
    have hgs : ∀ x ∈ gs, ValidGroup cls x.1 x.2 := fun x hx => hv x (List.mem_cons_of_mem _ hx)
    have hparse := hg ((gs.map Prod.fst).flatten ++ tail)
    have hne : g.1 ++ ((gs.map Prod.fst).flatten ++ tail) ≠ [] := by
      have h1 : (cls.FromStringList cls.fresh (g.1 ++ ((gs.map Prod.fst).flatten ++ tail))).1
          = true := by rw [hparse]
      obtain ⟨pre, hpre, heq⟩ := hc _ _ h1
      rw [heq]
      intro hnil
      exact hpre (List.append_eq_nil.mp hnil).1
    have hit : ((g :: gs).map Prod.fst).flatten ++ tail =
        g.1 ++ ((gs.map Prod.fst).flatten ++ tail) := by simp
    rw [hit]
    cases hcons : g.1 ++ ((gs.map Prod.fst).flatten ++ tail) with
    | nil => exact absurd hcons hne
    | cons a t =>
      rw [hcons] at hparse
      have := ih fuel (list ++ [g.2]) hgs (by simp at hf; omega)
      simp [hydrateLoop, hparse, this]

theorem sampleInputClass_consuming : Consuming sampleInputClass := by
  intro cur it h
  match it, h with
  | [], h => simp [sampleInputClass] at h
  | [_], h => simp [sampleInputClass] at h
  | n :: s :: rest, _ => exact ⟨[n, s], by simp, by simp [sampleInputClass]⟩

/-- C7, as the code has it, with hydration a parser that on success consumes a
non-empty prefix of the remaining fields, after an exchange that returned
true: a reply that is empty or whose field 0 is `EMPTY_LIST` yields the empty
list; a reply whose field 0 is not `EMPTY_LIST` and that is `k` valid
input-record groups, followed by nothing or by fields that fail to hydrate,
yields exactly the `k` records in encounter order, the decode loop ending
within `k + 1` iterations. -/
theorem C7_GetFreeInputs {I : Type} (cls : InputInfoClass I) (hc : Consuming cls) (st : State)
    (c : Int) (excluded_cardids : List Nat) (reply : Frame) (st1 : State)
    (h : SendReceiveStringList st
      ([remoteEncoder c] ++ ["GET_FREE_INPUTS"] ++
        excluded_cardids.map (fun x => number (x : Int))) 0 = some (true, reply, st1)) :
    (∀ fuel : Nat, reply = [] ∨ reply[0]? = some "EMPTY_LIST" →
      GetFreeInputs cls fuel st c excluded_cardids = some ([], st1)) ∧
    (∀ (fuel : Nat) (groups : List (Frame × I)) (tail : Frame),
      (∀ g ∈ groups, ValidGroup cls g.1 g.2) →
      reply = (groups.map Prod.fst).flatten ++ tail →
      reply[0]? ≠ some "EMPTY_LIST" →
      (tail = [] ∨ (cls.FromStringList cls.fresh tail).1 = false) →
      groups.length < fuel →
      GetFreeInputs cls fuel st c excluded_cardids = some (groups.map Prod.snd, st1)) := by
  constructor
  · intro fuel hr
    unfold GetFreeInputs
    dsimp only
    rw [h]
    cases reply with
    | nil => rfl
    | cons a t =>
      cases hr with
      | inl h1 => cases h1
      | inr h1 =>
        simp at h1
        simp [h1]
  · intro fuel groups tail hv hreply h0 htail hf
    have hloop := hydrateLoop_groups cls hc tail htail groups fuel [] hv hf
    rw [← hreply] at hloop
    unfold GetFreeInputs
    dsimp only
    rw [h]
    cases hcase : reply with
    | nil =>
      rw [hcase] at hloop
      obtain ⟨fuel, rfl⟩ : ∃ k, fuel = k + 1 := ⟨fuel - 1, by omega⟩
      simp [hydrateLoop] at hloop
      simp [← hloop]
    | cons a t =>
      rw [hcase] at hloop h0
      have ha : a ≠ "EMPTY_LIST" := by
        intro ha
        apply h0
        simp [ha]
      simp [ha, hloop]

/-- C7 amended, at the sample class: two groups, one group followed by an
incomplete one, and the `EMPTY_LIST` reply. -/
theorem C7_GetFreeInputs_witness :
    GetFreeInputs sampleInputClass 3 (stateOf [arrived ["A", "1", "B", "2"]] [true]) 3 [4] =
      some ([{ name := "A", sourceid := 1 }, { name := "B", sourceid := 2 }],
        stateAfter [["QUERY_REMOTEENCODER 3", "GET_FREE_INPUTS", "4"]] 1) ∧
    GetFreeInputs sampleInputClass 2 (stateOf [arrived ["A", "1", "B"]] [true]) 3 [4] =
      some ([{ name := "A", sourceid := 1 }],
        stateAfter [["QUERY_REMOTEENCODER 3", "GET_FREE_INPUTS", "4"]] 1) ∧
    GetFreeInputs sampleInputClass 0 (stateOf [arrived ["EMPTY_LIST"]] [true]) 3 [4] =
      some ([], stateAfter [["QUERY_REMOTEENCODER 3", "GET_FREE_INPUTS", "4"]] 1) :=
  ⟨(C7_GetFreeInputs sampleInputClass sampleInputClass_consuming
      (stateOf [arrived ["A", "1", "B", "2"]] [true]) 3 [4] ["A", "1", "B", "2"]
      (stateAfter [["QUERY_REMOTEENCODER 3", "GET_FREE_INPUTS", "4"]] 1) (by decide)).2 3
      [(["A", "1"], { name := "A", sourceid := 1 }), (["B", "2"], { name := "B", sourceid := 2 })]
      [] (by intro g hg; simp at hg; rcases hg with rfl | rfl <;> intro rest <;> rfl)
      rfl (by decide) (Or.inl rfl) (by decide),
   (C7_GetFreeInputs sampleInputClass sampleInputClass_consuming
      (stateOf [arrived ["A", "1", "B"]] [true]) 3 [4] ["A", "1", "B"]
      (stateAfter [["QUERY_REMOTEENCODER 3", "GET_FREE_INPUTS", "4"]] 1) (by decide)).2 2
      [(["A", "1"], { name := "A", sourceid := 1 })]
      ["B"] (by intro g hg; simp at hg; rcases hg with rfl; intro rest; rfl)
      rfl (by decide) (Or.inr rfl) (by decide),
   (C7_GetFreeInputs sampleInputClass sampleInputClass_consuming
      (stateOf [arrived ["EMPTY_LIST"]] [true]) 3 [4] ["EMPTY_LIST"]
      (stateAfter [["QUERY_REMOTEENCODER 3", "GET_FREE_INPUTS", "4"]] 1) (by decide)).1 0
      (Or.inr rfl)⟩

/-- C7 as stated fails: the reply `["EMPTY_LIST", "7"]` is one valid
input-record group, for the record named `EMPTY_LIST`, yet `GetFreeInputs`
returns the empty list. -/
theorem C7_counterexample :
    Consuming sampleInputClass ∧
    ValidGroup sampleInputClass ["EMPTY_LIST", "7"] { name := "EMPTY_LIST", sourceid := 7 } ∧
    (SendReceiveStringList (stateOf [arrived ["EMPTY_LIST", "7"]] [true])
        ([remoteEncoder 3] ++ ["GET_FREE_INPUTS"]) 0).map (fun r => (r.1, r.2.1)) =
      some (true, ["EMPTY_LIST", "7"]) ∧
    (GetFreeInputs sampleInputClass 8 (stateOf [arrived ["EMPTY_LIST", "7"]] [true]) 3 []).map
        (fun r => r.1) = some [] ∧
    (GetFreeInputs sampleInputClass 8 (stateOf [arrived ["EMPTY_LIST", "7"]] [true]) 3 []).map
        (fun r => r.1) ≠ some [{ name := "EMPTY_LIST", sourceid := 7 }] := by
  refine ⟨sampleInputClass_consuming, fun rest => rfl, by decide, by decide, by decide⟩

end PlaybackSock
